import Mathlib

/-
Verification of the EventHub durable job queue core.

Shallow embedding of the Go sources:
  internal/repo/postgres/jobs_repo.go                (jobs table operations)
  internal/repo/postgres/notification_deliveries_repo.go (delivery ledger)
  internal/queue/worker/worker.go                    (executor, failure handling)
  internal/domain/job/job.go                         (job construction defaults)
  the circuit-breaker-protected notifier and ExponentialBackoff
  internal/http/handlers/registrations.go            (transactional enqueue)

Machine integers are modelled as Int (with explicit bounds where int64
overflow matters), timestamps as Int nanoseconds since an arbitrary epoch,
and SQL tables as Lists of rows in physical storage order.  A SQL query
whose ORDER BY does not totally order the rows is modelled by resolving the
remaining nondeterminism by list position, which is storage-dependent and
externally arbitrary; properties claimed to hold for the query must
therefore hold for every list arrangement of the same rows.
-/

namespace EventHub

/-- Status column of the jobs table: pending, processing, done, failed. -/
inductive JobStatus
  | pending
  | processing
  | done
  | failed
deriving DecidableEq, Repr

/-- One row of the jobs table, fields as in internal/domain/job/job.go and the
jobs table schema.  The id column (a UUID in the source) is modelled as Nat;
timestamps are Int nanoseconds. -/
structure JobRow where
  id : Nat
  jobType : String
  payload : String
  status : JobStatus
  attempts : Int
  maxAttempts : Int
  runAt : Int
  lockedAt : Option Int
  lockedBy : Option String
  lastError : Option String
  idempotencyKey : Option String
  priority : Int
  userId : Option String
  createdAt : Int
  updatedAt : Int
deriving DecidableEq, Repr

/-- Eligibility filter of ClaimNext (jobs_repo.go):
status = pending AND run_at <= NOW() AND attempts < max_attempts. -/
def eligible (now : Int) (r : JobRow) : Bool :=
  decide (r.status = JobStatus.pending) &&
  decide (r.runAt ≤ now) &&
  decide (r.attempts < r.maxAttempts)

/-- Strict sort order of the ClaimNext query:
ORDER BY priority DESC, run_at ASC, created_at ASC (jobs_repo.go).
The query orders by no further column, so rows equal on these three keys are
not distinguished by this relation. -/
def claimBefore (a b : JobRow) : Bool :=
  decide (b.priority < a.priority ∨
    (a.priority = b.priority ∧ (a.runAt < b.runAt ∨
      (a.runAt = b.runAt ∧ a.createdAt < b.createdAt))))

/-- The sort order asserted by the specification for ClaimNext: the same three
keys, with ties broken deterministically by (created_at, id), hence a final
id tie-break.  This definition follows the words of the spec and is compared
against the order actually used by the source query. -/
def specBefore (a b : JobRow) : Bool :=
  decide (b.priority < a.priority ∨
    (a.priority = b.priority ∧ (a.runAt < b.runAt ∨
      (a.runAt = b.runAt ∧ (a.createdAt < b.createdAt ∨
        (a.createdAt = b.createdAt ∧ a.id < b.id))))))

/-- First minimal element of a list under a strict comparison, scanning in
list order and replacing the current best only on a strictly-smaller element;
ties are therefore resolved in favour of the earlier list position, the
storage-order resolution of the ORDER BY nondeterminism. -/
def pickMinBy (lt : JobRow → JobRow → Bool) : List JobRow → Option JobRow
  | [] => none
  | r :: rs => some (rs.foldl (fun best c => if lt c best then c else best) r)

/-- The UPDATE of the claimed row (jobs_repo.go ClaimNext):
status = processing, locked_at = NOW(), locked_by = worker id,
updated_at = NOW(); every other column is untouched. -/
def claimApply (now : Int) (wid : String) (r : JobRow) : JobRow :=
  { r with status := JobStatus.processing, lockedAt := some now,
           lockedBy := some wid, updatedAt := now }

/-- ClaimNext (jobs_repo.go): pick one eligible row minimal in the query
order, update it to processing and return the post-update row; return none
and leave the table unchanged when no row is eligible. -/
def claimNext (now : Int) (wid : String) (tbl : List JobRow) :
    Option JobRow × List JobRow :=
  match pickMinBy claimBefore (tbl.filter (eligible now)) with
  | none => (none, tbl)
  | some t =>
      (some (claimApply now wid t),
       tbl.map (fun r => if r.id = t.id then claimApply now wid r else r))

/-- The row the specification says ClaimNext must take: the eligible row that
is first under specBefore (ties broken by created_at then id). -/
def specOrderedFirst (now : Int) (tbl : List JobRow) : Option JobRow :=
  pickMinBy specBefore (tbl.filter (eligible now))

/-- Effective lock TTL of RequeueStaleProcessing (jobs_repo.go):
secs := int64(lockTTL.Seconds()); if secs <= 0 { secs = 30 }.
Converting the duration to whole seconds truncates toward zero for
nonnegative durations; for durations whose truncation is nonpositive the
code substitutes 30 seconds.  (Lean's Int division agrees with Go's
truncation on all inputs that reach the clamp decision.) -/
def requeueTtlSecs (lockTTLNs : Int) : Int :=
  let secs := lockTTLNs / 1000000000
  if secs ≤ 0 then 30 else secs

/-- The WHERE clause of RequeueStaleProcessing:
status = processing AND locked_at IS NOT NULL AND
locked_at < NOW() - (secs * INTERVAL '1 second'). -/
def staleAt (now lockTTLNs : Int) (r : JobRow) : Bool :=
  decide (r.status = JobStatus.processing) &&
  (match r.lockedAt with
   | none => false
   | some la => decide (la < now - requeueTtlSecs lockTTLNs * 1000000000))

/-- The SET clause of RequeueStaleProcessing: status = pending,
locked_at = NULL, locked_by = NULL, updated_at = NOW(); attempts and every
other column untouched. -/
def resetStaleRow (now : Int) (r : JobRow) : JobRow :=
  { r with status := JobStatus.pending, lockedAt := none, lockedBy := none,
           updatedAt := now }

/-- RequeueStaleProcessing (jobs_repo.go): reset every stale processing row
to pending and return the number of rows affected. -/
def requeueStaleProcessing (now lockTTLNs : Int) (tbl : List JobRow) :
    List JobRow × Nat :=
  (tbl.map (fun r => if staleAt now lockTTLNs r then resetStaleRow now r else r),
   (tbl.filter (staleAt now lockTTLNs)).length)

/-- CreateRequest (internal/domain/job/job.go): the enqueue request.  The
zero time.Time of Go is modelled as the Int value 0 in the runAt field. -/
structure CreateRequest where
  jobType : String
  payload : String
  runAt : Int
  maxAttempts : Int
  idempotencyKey : Option String
deriving DecidableEq, Repr

/-- job.New (internal/domain/job/job.go): builds the row to insert.
maxAttempts defaults to 25 when the request value is nonpositive; runAt
defaults to the creation instant when the request carries Go's zero time.
Status is pending and attempts is 0.  Fields the constructor does not set
(priority, locks, lastError) carry Go zero values. -/
def jobNew (req : CreateRequest) (now : Int) (newId : Nat) : JobRow :=
  let maxA := if req.maxAttempts ≤ 0 then 25 else req.maxAttempts
  let runAt := if req.runAt = 0 then now else req.runAt
  { id := newId, jobType := req.jobType, payload := req.payload,
    status := JobStatus.pending, attempts := 0, maxAttempts := maxA,
    runAt := runAt, lockedAt := none, lockedBy := none, lastError := none,
    idempotencyKey := req.idempotencyKey, priority := 0, userId := none,
    createdAt := now, updatedAt := now }

/-- Create / CreateTx (jobs_repo.go): INSERT of the row built by job.New.
The unique index on idempotency_key rejects the insert when another row
already carries the same non-null key (error 23505). -/
def jobsCreate (now : Int) (newId : Nat) (req : CreateRequest)
    (tbl : List JobRow) : Except Unit (JobRow × List JobRow) :=
  let dup :=
    match req.idempotencyKey with
    | none => false
    | some k => tbl.any (fun r => decide (r.idempotencyKey = some k))
  if dup then Except.error ()
  else
    let j := jobNew req now newId
    Except.ok (j, tbl ++ [j])

/-- Int64 maximum, the largest value a Go time.Duration can hold. -/
def int64Max : Int := 9223372036854775807

/-- Result of converting an out-of-range float64 to int64 on Go's amd64 and
arm64 toolchains (the processor's indefinite integer value, -2^63).  The Go
specification leaves the out-of-range conversion implementation-dependent;
this models the mainstream platforms. -/
def int64Indefinite : Int := -9223372036854775808

/-- ExponentialBackoff (worker package): base 2s, cap 5min,
delay := time.Duration(float64(base) * math.Pow(2, attempt)), capped, plus
rand.Intn(250) milliseconds of jitter.  The float64 arithmetic is exact for
every attempt in range (both factors are powers of two times small
integers), so the only lossy step is the conversion to int64 nanoseconds,
which overflows once base * 2^attempt exceeds int64Max.  The jitter draw is
passed in as jitterMs, a whole number of milliseconds in [0, 250). -/
def exponentialBackoff (attempt : Int) (jitterMs : Int) : Int :=
  let base : Int := 2000000000
  let capDelay : Int := 300000000000
  let product : Int := base * 2 ^ attempt.toNat
  let delay : Int := if product ≤ int64Max then product else int64Indefinite
  let delay2 : Int := if capDelay < delay then capDelay else delay
  delay2 + jitterMs * 1000000

/-- Base delay of ExponentialBackoff, 2s in nanoseconds. -/
def backoffBase : Int := 2000000000

/-- Cap of ExponentialBackoff, 5min in nanoseconds. -/
def backoffCap : Int := 300000000000

/-- A handler error as seen by the worker: its message and whether
errors.Is(err, notifications.ErrCircuitOpen) holds. -/
structure HandlerError where
  msg : String
  isCircuitOpen : Bool
deriving DecidableEq, Repr

/-- Decision taken by Worker.handleFailure for a failed job. -/
inductive FailureAction
  | rescheduled (runAt : Int) (msg : String)
  | deadLettered (msg : String)
deriving DecidableEq, Repr

/-- Worker.handleFailure (worker.go): nextAttempt := attempts + 1; when
nextAttempt < maxAttempts, reschedule at now + ExponentialBackoff(attempts)
with the error message; otherwise dead-letter via MarkFailed.  The decision
reads nothing from the error except its message. -/
def handleFailure (now jitterMs : Int) (j : JobRow) (e : HandlerError) :
    FailureAction :=
  if j.attempts + 1 < j.maxAttempts then
    FailureAction.rescheduled (now + exponentialBackoff j.attempts jitterMs) e.msg
  else
    FailureAction.deadLettered e.msg

/-- The SET clause of Reschedule (jobs_repo.go): status = pending,
attempts = attempts + 1, run_at = $2, locks cleared, last_error = $3,
updated_at = NOW(). -/
def rescheduleRow (now runAt : Int) (msg : String) (r : JobRow) : JobRow :=
  { r with status := JobStatus.pending, attempts := r.attempts + 1,
           runAt := runAt, lockedAt := none, lockedBy := none,
           lastError := some msg, updatedAt := now }

/-- Reschedule (jobs_repo.go): UPDATE of the row with the given id. -/
def reschedule (now runAt : Int) (id : Nat) (msg : String)
    (tbl : List JobRow) : List JobRow :=
  tbl.map (fun r => if r.id = id then rescheduleRow now runAt msg r else r)

/-- The SET clause of MarkFailed (jobs_repo.go): status = failed, locks
cleared, last_error = $2, updated_at = NOW(). -/
def markFailedRow (now : Int) (msg : String) (r : JobRow) : JobRow :=
  { r with status := JobStatus.failed, lockedAt := none, lockedBy := none,
           lastError := some msg, updatedAt := now }

/-- MarkFailed (jobs_repo.go): UPDATE of the row with the given id. -/
def markFailed (now : Int) (id : Nat) (msg : String)
    (tbl : List JobRow) : List JobRow :=
  tbl.map (fun r => if r.id = id then markFailedRow now msg r else r)

/-- The jobs-table effect of handleFailure: Reschedule on retry, MarkFailed
on dead-letter, exactly as the worker invokes the repository. -/
def applyFailure (now jitterMs : Int) (j : JobRow) (e : HandlerError)
    (tbl : List JobRow) : List JobRow :=
  match handleFailure now jitterMs j e with
  | FailureAction.rescheduled runAt msg => reschedule now runAt j.id msg tbl
  | FailureAction.deadLettered msg => markFailed now j.id msg tbl

/-- The three states of the protected notifier's circuit breaker. -/
inductive BreakerMode
  | closed
  | opened
  | halfOpen
deriving DecidableEq, Repr

/-- Configuration of the protected notifier relevant to the breaker (the
per-call timeout plays no role in the state transitions). -/
structure BreakerConfig where
  failureThreshold : Nat
  cooldownNs : Int
  halfOpenMaxCalls : Nat
deriving DecidableEq, Repr

/-- Mutable state of ProtectedNotifier guarded by its mutex. -/
structure Breaker where
  mode : BreakerMode
  consecutiveFailures : Nat
  openedAt : Int
  halfOpenInFlight : Nat
deriving DecidableEq, Repr

/-- State of a freshly constructed ProtectedNotifier: closed, zero
counters. -/
def breakerInit : Breaker :=
  { mode := BreakerMode.closed, consecutiveFailures := 0, openedAt := 0,
    halfOpenInFlight := 0 }

/-- ProtectedNotifier.allowRequest, one atomic mutex-protected step.
closed: admit.  open: if now - openedAt >= cooldown, move to half_open with
half_open_in_flight reset to 0 and admit (without incrementing the in-flight
counter); otherwise refuse.  half_open: refuse when the in-flight counter
has reached halfOpenMaxCalls, else increment it and admit. -/
def allowRequest (cfg : BreakerConfig) (now : Int) (b : Breaker) :
    Breaker × Bool :=
  match b.mode with
  | BreakerMode.closed => (b, true)
  | BreakerMode.opened =>
      if b.openedAt + cfg.cooldownNs ≤ now then
        ({ b with mode := BreakerMode.halfOpen, halfOpenInFlight := 0 }, true)
      else (b, false)
  | BreakerMode.halfOpen =>
      if cfg.halfOpenMaxCalls ≤ b.halfOpenInFlight then (b, false)
      else ({ b with halfOpenInFlight := b.halfOpenInFlight + 1 }, true)

/-- ProtectedNotifier.afterRequest, one atomic mutex-protected step.  First
decrement the in-flight counter when in half_open with a positive counter;
on success reset the failure counter and close; on failure increment the
failure counter, reopen immediately from half_open, otherwise open once the
counter reaches the threshold (recording openedAt = now). -/
def afterRequest (cfg : BreakerConfig) (now : Int) (failed : Bool)
    (b : Breaker) : Breaker :=
  let b1 :=
    if b.mode = BreakerMode.halfOpen ∧ 0 < b.halfOpenInFlight then
      { b with halfOpenInFlight := b.halfOpenInFlight - 1 }
    else b
  if failed then
    let b2 := { b1 with consecutiveFailures := b1.consecutiveFailures + 1 }
    if b2.mode = BreakerMode.halfOpen then
      { b2 with mode := BreakerMode.opened, openedAt := now }
    else if cfg.failureThreshold ≤ b2.consecutiveFailures then
      { b2 with mode := BreakerMode.opened, openedAt := now }
    else b2
  else
    { b1 with consecutiveFailures := 0, mode := BreakerMode.closed }

/-- Outcome of one SendRegistrationConfirmation call through the breaker. -/
inductive SendResult
  | ok
  | innerErr
  | circuitOpen
deriving DecidableEq, Repr

/-- ProtectedNotifier.SendRegistrationConfirmation as a single sequential
call with no interleaving: allowRequest, then (when admitted) the inner send
followed by afterRequest.  The third component records whether the inner
notifier was invoked. -/
def sendStep (cfg : BreakerConfig) (now : Int) (innerFails : Bool)
    (b : Breaker) : Breaker × SendResult × Bool :=
  let p := allowRequest cfg now b
  if p.2 then
    (afterRequest cfg now innerFails p.1,
     if innerFails then SendResult.innerErr else SendResult.ok, true)
  else
    (p.1, SendResult.circuitOpen, false)

/-- State after a sequence of sequential calls that all fail at the inner
notifier, performed at the listed times. -/
def failTrace (cfg : BreakerConfig) (times : List Int) (b : Breaker) :
    Breaker :=
  times.foldl (fun s t => (sendStep cfg t true s).1) b

/-- A run of n consecutive allowRequest events with no intervening
completion (the interleaving in which n goroutines all pass the admission
gate before any finishes its send); returns the final state and how many of
the n calls were admitted. -/
def allowRun (cfg : BreakerConfig) (now : Int) : Nat → Breaker → Breaker × Nat
  | 0, b => (b, 0)
  | n + 1, b =>
      let p := allowRequest cfg now b
      let q := allowRun cfg now n p.1
      (q.1, (if p.2 then 1 else 0) + q.2)

/-- Delivery-ledger status column. -/
inductive DeliveryStatus
  | sending
  | sent
  | failed
deriving DecidableEq, Repr

/-- One notification_deliveries row for a fixed (kind, registration_id) key.
kind is always "registration.confirmation" and the key is fixed, so the
state of one logical delivery is an Option of this record. -/
structure DeliveryRecord where
  jobId : Nat
  recipient : String
  status : DeliveryStatus
  sentAt : Option Int
  providerMessageId : Option String
  lastError : Option String
  updatedAt : Int
deriving DecidableEq, Repr

/-- Outcome classification of TryStartRegistration as surfaced to the
caller: ok covers both the fresh insert and the failed-row retry claim
(the Go method returns nil for both). -/
inductive StartOutcome
  | started
  | retryClaim
  | alreadySent
  | inProgress
deriving DecidableEq, Repr

/-- TryStartRegistration (notification_deliveries_repo.go): insert a
sending row if missing; on the unique violation, atomically flip a failed
row back to sending (recording the new job id and recipient, clearing
last_error); otherwise report AlreadySent when sent_at is non-null or the
status is sent, and InProgress when the row is still sending. -/
def tryStartRegistration (now : Int) (jobId : Nat) (recipient : String) :
    Option DeliveryRecord → Option DeliveryRecord × StartOutcome
  | none =>
      (some { jobId := jobId, recipient := recipient,
              status := DeliveryStatus.sending, sentAt := none,
              providerMessageId := none, lastError := none,
              updatedAt := now },
       StartOutcome.started)
  | some r =>
      if r.status = DeliveryStatus.failed then
        (some { r with status := DeliveryStatus.sending, jobId := jobId,
                       recipient := recipient, lastError := none,
                       updatedAt := now },
         StartOutcome.retryClaim)
      else if r.sentAt ≠ none ∨ r.status = DeliveryStatus.sent then
        (some r, StartOutcome.alreadySent)
      else
        (some r, StartOutcome.inProgress)

/-- MarkRegistrationConfirmationSent (notification_deliveries_repo.go):
unguarded UPDATE to status = sent, sent_at = NOW(), recording the provider
message id and clearing last_error.  A missing row is a no-op (zero rows
affected). -/
def markRegistrationConfirmationSent (now : Int) (pmid : Option String) :
    Option DeliveryRecord → Option DeliveryRecord
  | none => none
  | some r =>
      some { r with status := DeliveryStatus.sent, sentAt := some now,
                    providerMessageId := pmid, lastError := none,
                    updatedAt := now }

/-- MarkRegistrationConfirmationFailed (notification_deliveries_repo.go):
unguarded UPDATE to status = failed recording last_error.  The WHERE clause
constrains only the key, not the current status. -/
def markRegistrationConfirmationFailed (now : Int) (msg : String) :
    Option DeliveryRecord → Option DeliveryRecord
  | none => none
  | some r =>
      some { r with status := DeliveryStatus.failed, lastError := some msg,
                    updatedAt := now }

/-- One delivery-ledger operation on the fixed (kind, registration_id)
key. -/
inductive LedgerOp
  | tryStart (now : Int) (jobId : Nat) (recipient : String)
  | markSentOp (now : Int) (pmid : Option String)
  | markFailedOp (now : Int) (msg : String)
deriving DecidableEq, Repr

/-- Apply one ledger operation to the record state. -/
def applyLedgerOp (op : LedgerOp) (r : Option DeliveryRecord) :
    Option DeliveryRecord :=
  match op with
  | LedgerOp.tryStart now jobId recipient =>
      (tryStartRegistration now jobId recipient r).1
  | LedgerOp.markSentOp now pmid => markRegistrationConfirmationSent now pmid r
  | LedgerOp.markFailedOp now msg =>
      markRegistrationConfirmationFailed now msg r

/-- Apply a sequence of ledger operations in order. -/
def applyLedgerOps (ops : List LedgerOp) (r : Option DeliveryRecord) :
    Option DeliveryRecord :=
  ops.foldl (fun s op => applyLedgerOp op s) r

/-- Whether the operation is the unguarded MarkRegistrationConfirmationFailed. -/
def isMarkFailedOp : LedgerOp → Bool
  | LedgerOp.markFailedOp _ _ => true
  | _ => false

/-- Result of the send-once gate as the registration.confirmation handler
observes it: nil (ownership of the send), ErrAlreadySent, ErrInProgress, or
any other repository error. -/
inductive GateResult
  | ok
  | alreadySent
  | inProgress
  | otherErr (msg : String)
deriving DecidableEq, Repr

/-- Error returned by ProtectedNotifier.SendRegistrationConfirmation:
message plus whether errors.Is(err, ErrCircuitOpen) holds. -/
structure SendError where
  msg : String
  isCircuitOpen : Bool
deriving DecidableEq, Repr

/-- Collaborator calls the registration.confirmation handler can make, in
the order it makes them. -/
inductive ExecEvent
  | tryStartCall
  | notifierSend
  | markFailedCall (msg : String)
  | markSentCall
deriving DecidableEq, Repr

/-- Result of Worker.execute: success (nil) or a handler error. -/
inductive ExecResult
  | success
  | failure (e : HandlerError)
deriving DecidableEq, Repr

/-- The registration.confirmation branch of Worker.execute (worker.go) for a
payload that decodes, with notifier and deliveries configured.  Collaborator
behaviour is an oracle: gate is what TryStartRegistration reports, send is
the notifier error if any, markSentOk whether the final MarkSent update
succeeds.  Returns the handler result and the ordered trace of collaborator
calls.  On a send error the handler always marks the ledger row failed
before returning, wrapping a circuit-open error so that errors.Is still
recognises it; a MarkSent failure is logged and the handler still returns
nil. -/
def executeConfirmation (gate : GateResult) (send : Option SendError)
    (markSentOk : Bool) : ExecResult × List ExecEvent :=
  match gate with
  | GateResult.alreadySent => (ExecResult.success, [ExecEvent.tryStartCall])
  | GateResult.inProgress =>
      (ExecResult.failure { msg := "confirmation send in progress",
                            isCircuitOpen := false },
       [ExecEvent.tryStartCall])
  | GateResult.otherErr m =>
      (ExecResult.failure { msg := m, isCircuitOpen := false },
       [ExecEvent.tryStartCall])
  | GateResult.ok =>
      match send with
      | some e =>
          (if e.isCircuitOpen then
             ExecResult.failure { msg := "notifier fail-fast: " ++ e.msg,
                                  isCircuitOpen := true }
           else
             ExecResult.failure { msg := e.msg, isCircuitOpen := false },
           [ExecEvent.tryStartCall, ExecEvent.notifierSend,
            ExecEvent.markFailedCall e.msg])
      | none =>
          (ExecResult.success,
           [ExecEvent.tryStartCall, ExecEvent.notifierSend,
            ExecEvent.markSentCall])

/-- Outcome of the confirmation-job enqueue inside the registration
transaction, as RegistrationHandler.Register classifies it: success, a
unique violation on the idempotency key (error code 23505), or any other
error. -/
inductive EnqueueOutcome
  | enqOk (jobId : Nat)
  | uniqueViolation
  | otherErr
deriving DecidableEq, Repr

/-- Response of Register relevant here: 201 Created or an internal error. -/
inductive RegisterResponse
  | created
  | internalError
deriving DecidableEq, Repr

/-- RegistrationHandler.Register (registrations.go) after CreateTx of the
registration succeeded: on an enqueue error that is not a unique violation,
respond 500 and return (the deferred Rollback undoes the registration); on a
unique violation fall through exactly like the success path; then Commit and
respond 201 when it succeeds, 500 when it fails.  The Bool component records
whether Commit was invoked. -/
def registerAfterCreate (enq : EnqueueOutcome) (commitOk : Bool) :
    RegisterResponse × Bool :=
  match enq with
  | EnqueueOutcome.otherErr => (RegisterResponse.internalError, false)
  | EnqueueOutcome.uniqueViolation =>
      (if commitOk then RegisterResponse.created
       else RegisterResponse.internalError, true)
  | EnqueueOutcome.enqOk _ =>
      (if commitOk then RegisterResponse.created
       else RegisterResponse.internalError, true)

/-- Whether the registration row is durably committed: Commit was invoked
and succeeded. -/
def registrationCommitted (enq : EnqueueOutcome) (commitOk : Bool) : Bool :=
  (registerAfterCreate enq commitOk).2 && commitOk

/-- Two eligible rows equal on all three ORDER BY keys of ClaimNext,
differing only in id; stored with the higher id earlier in the table. -/
def tieRowLo : JobRow :=
  { id := 1, jobType := "event.publish", payload := "",
    status := JobStatus.pending, attempts := 0, maxAttempts := 3, runAt := 0,
    lockedAt := none, lockedBy := none, lastError := none,
    idempotencyKey := none, priority := 0, userId := none, createdAt := 0,
    updatedAt := 0 }

/-- The higher-id twin of tieRowLo. -/
def tieRowHi : JobRow := { tieRowLo with id := 2 }

/-- A processing row whose lock is 10 seconds old at the reference instant
100s, used against RequeueStaleProcessing with a sub-second TTL. -/
def staleRowTenSec : JobRow :=
  { id := 3, jobType := "event.publish", payload := "",
    status := JobStatus.processing, attempts := 1, maxAttempts := 3,
    runAt := 0, lockedAt := some 90000000000, lockedBy := some "w1",
    lastError := none, idempotencyKey := none, priority := 0, userId := none,
    createdAt := 0, updatedAt := 0 }

/-
Theorems.  Helper lemmas come first, then one theorem per claim with its
witness or counterexample.
-/

/-- Nothing sorts strictly before itself in the ClaimNext order. -/
theorem claimBefore_irrefl (a : JobRow) : claimBefore a a = false := by
  simp [claimBefore]

/-- The ClaimNext order is transitive. -/
theorem claimBefore_trans {a b c : JobRow} (h1 : claimBefore a b = true)
    (h2 : claimBefore b c = true) : claimBefore a c = true := by
  simp only [claimBefore, decide_eq_true_eq] at h1 h2 ⊢
  omega

/-- The ClaimNext order is a strict weak order: an element that does not
sort before b but sorts before c forces b to sort before c. -/
theorem claimBefore_weak {a b c : JobRow} (h1 : claimBefore a b = false)
    (h2 : claimBefore a c = true) : claimBefore b c = true := by
  simp only [claimBefore, decide_eq_true_eq, decide_eq_false_iff_not] at h1 h2 ⊢
  omega

/-- The foldl inside pickMinBy claimBefore returns an element of the scanned
prefix (or the seed) with nothing sorting strictly before it. -/
theorem foldlMin_spec (l : List JobRow) (b : JobRow) :
    (l.foldl (fun best c => if claimBefore c best then c else best) b = b ∨
       l.foldl (fun best c => if claimBefore c best then c else best) b ∈ l) ∧
    claimBefore b
      (l.foldl (fun best c => if claimBefore c best then c else best) b) = false ∧
    ∀ x ∈ l,
      claimBefore x
        (l.foldl (fun best c => if claimBefore c best then c else best) b) = false := by
  induction l generalizing b with
  | nil => simp [claimBefore_irrefl]
  | cons c t ih =>
    simp only [List.foldl_cons]
    by_cases h : claimBefore c b = true
    · rw [if_pos h]
      obtain ⟨hmem, hb, hall⟩ := ih c
      refine ⟨?_, ?_, ?_⟩
      · rcases hmem with h1 | h1
        · exact Or.inr (by rw [h1]; exact List.mem_cons_self c t)
        · exact Or.inr (List.mem_cons_of_mem c h1)
      · by_contra hc
        rw [Bool.not_eq_false] at hc
        have := claimBefore_trans h hc
        rw [hb] at this
        exact Bool.false_ne_true this
      · intro x hx
        rcases List.mem_cons.mp hx with rfl | hx2
        · exact hb
        · exact hall x hx2
    · rw [Bool.not_eq_true] at h
      rw [if_neg (by rw [h]; exact Bool.false_ne_true)]
      obtain ⟨hmem, hb, hall⟩ := ih b
      refine ⟨?_, hb, ?_⟩
      · rcases hmem with h1 | h1
        · exact Or.inl h1
        · exact Or.inr (List.mem_cons_of_mem c h1)
      · intro x hx
        rcases List.mem_cons.mp hx with rfl | hx2
        · by_contra hc
          rw [Bool.not_eq_false] at hc
          have := claimBefore_weak h hc
          rw [hb] at this
          exact Bool.false_ne_true this
        · exact hall x hx2

/-- pickMinBy returns none exactly on the empty list. -/
theorem pickMinBy_eq_none (lt : JobRow → JobRow → Bool) (l : List JobRow) :
    pickMinBy lt l = none ↔ l = [] := by
  cases l <;> simp [pickMinBy]

/-- A row returned by pickMinBy claimBefore belongs to the list and is
minimal: no list element sorts strictly before it. -/
theorem pickMinBy_claimBefore_spec {l : List JobRow} {m : JobRow}
    (h : pickMinBy claimBefore l = some m) :
    m ∈ l ∧ ∀ x ∈ l, claimBefore x m = false := by
  cases l with
  | nil => simp [pickMinBy] at h
  | cons r rs =>
    simp only [pickMinBy, Option.some.injEq] at h
    subst h
    obtain ⟨hmem, hb, hall⟩ := foldlMin_spec rs r
    refine ⟨?_, ?_⟩
    · rcases hmem with h1 | h1
      · rw [h1]; exact List.mem_cons_self r rs
      · exact List.mem_cons_of_mem r h1
    · intro x hx
      rcases List.mem_cons.mp hx with rfl | hx2
      · exact hb
      · exact hall x hx2

/-- C1 (amended): for every jobs-table state and worker id, ClaimNext
returns None exactly when no row satisfies status = pending, run_at <= now
and attempts < max_attempts (leaving the table unchanged); otherwise it
selects one eligible row that is minimal in the order (priority DESC,
run_at ASC, created_at ASC) — ties among rows equal on all three keys are
resolved in a storage-dependent order, not by id — updates that row (and
no other) to status = processing, locked_at = now, locked_by = worker id,
updated_at = now, leaves its remaining columns unchanged, and returns the
post-update row. -/
theorem claimNext_characterization (now : Int) (wid : String)
    (tbl : List JobRow) :
    ((claimNext now wid tbl).1 = none ↔ ∀ r ∈ tbl, eligible now r = false) ∧
    ((claimNext now wid tbl).1 = none → (claimNext now wid tbl).2 = tbl) ∧
    (∀ j, (claimNext now wid tbl).1 = some j →
       ∃ t ∈ tbl, eligible now t = true ∧
         (∀ r ∈ tbl, eligible now r = true → claimBefore r t = false) ∧
         j = claimApply now wid t ∧
         (claimNext now wid tbl).2 =
           tbl.map (fun r => if r.id = t.id then claimApply now wid r else r)) ∧
    (∀ r : JobRow,
       (claimApply now wid r).status = JobStatus.processing ∧
       (claimApply now wid r).lockedAt = some now ∧
       (claimApply now wid r).lockedBy = some wid ∧
       (claimApply now wid r).updatedAt = now ∧
       (claimApply now wid r).id = r.id ∧
       (claimApply now wid r).jobType = r.jobType ∧
       (claimApply now wid r).payload = r.payload ∧
       (claimApply now wid r).attempts = r.attempts ∧
       (claimApply now wid r).maxAttempts = r.maxAttempts ∧
       (claimApply now wid r).runAt = r.runAt ∧
       (claimApply now wid r).priority = r.priority ∧
       (claimApply now wid r).createdAt = r.createdAt) := by
  refine ⟨?_, ?_, ?_, ?_⟩
  · constructor
    · intro h r hr
      cases hp : pickMinBy claimBefore (tbl.filter (eligible now)) with
      | none =>
        have hfil : tbl.filter (eligible now) = [] :=
          (pickMinBy_eq_none claimBefore _).mp hp
        by_contra hc
        rw [Bool.not_eq_false] at hc
        have : r ∈ tbl.filter (eligible now) := List.mem_filter.mpr ⟨hr, hc⟩
        rw [hfil] at this
        exact List.not_mem_nil r this
      | some t => simp [claimNext, hp] at h
    · intro hall
      have hfil : tbl.filter (eligible now) = [] := by
        apply List.filter_eq_nil_iff.mpr
        intro a ha
        rw [hall a ha]
        exact Bool.false_ne_true
      simp [claimNext, hfil, pickMinBy]
  · intro h
    cases hp : pickMinBy claimBefore (tbl.filter (eligible now)) with
    | none => simp [claimNext, hp]
    | some t => simp [claimNext, hp] at h
  · intro j hj
    cases hp : pickMinBy claimBefore (tbl.filter (eligible now)) with
    | none => simp [claimNext, hp] at hj
    | some t =>
      obtain ⟨hmem, hmin⟩ := pickMinBy_claimBefore_spec hp
      obtain ⟨htbl, helig⟩ := List.mem_filter.mp hmem
      refine ⟨t, htbl, helig, ?_, ?_, ?_⟩
      · intro r hr he
        exact hmin r (List.mem_filter.mpr ⟨hr, he⟩)
      · simp only [claimNext, hp, Option.some.injEq] at hj
        exact hj.symm
      · simp [claimNext, hp]
  · intro r
    exact ⟨rfl, rfl, rfl, rfl, rfl, rfl, rfl, rfl, rfl, rfl, rfl, rfl⟩

/-- Witness for C1: on the empty table, ClaimNext returns None. -/
theorem claimNext_characterization_witness :
    (claimNext 10 "w1" ([] : List JobRow)).1 = none :=
  ((claimNext_characterization 10 "w1" []).1).mpr (by simp)

/-- C1 counterexample: two eligible rows tie on (priority, run_at,
created_at); the spec's order (tie broken by created_at then id) selects the
id-1 row, but the ClaimNext query — whose ORDER BY names no id column —
returns the id-2 row when storage order happens to list it first.  The
claimed deterministic (created_at, id) tie-break therefore does not hold. -/
theorem claimNext_no_id_tiebreak :
    eligible 10 tieRowLo = true ∧ eligible 10 tieRowHi = true ∧
    tieRowLo.priority = tieRowHi.priority ∧
    tieRowLo.runAt = tieRowHi.runAt ∧
    tieRowLo.createdAt = tieRowHi.createdAt ∧
    tieRowLo.id < tieRowHi.id ∧
    specOrderedFirst 10 [tieRowHi, tieRowLo] = some tieRowLo ∧
    (claimNext 10 "w1" [tieRowHi, tieRowLo]).1 =
      some (claimApply 10 "w1" tieRowHi) ∧
    (claimApply 10 "w1" tieRowHi).id ≠ tieRowLo.id := by
  decide

/-- C9 (amended): RequeueStaleProcessing resets to pending — clearing both
lock fields and touching updated_at — exactly the rows with
status = processing and a non-null locked_at older than now minus the
EFFECTIVE TTL, and returns their count; the effective TTL is the requested
lock_ttl truncated to whole seconds, replaced by 30 seconds whenever that
truncation is nonpositive.  The attempts column of every row, and every
column of every non-matching row, is unchanged. -/
theorem requeueStale_characterization (now ttl : Int) (tbl : List JobRow)
    (r : JobRow) :
    (requeueStaleProcessing now ttl tbl).2 =
      (tbl.filter (staleAt now ttl)).length ∧
    (requeueStaleProcessing now ttl tbl).1 =
      tbl.map (fun x => if staleAt now ttl x then resetStaleRow now x else x) ∧
    (staleAt now ttl r = true ↔
       r.status = JobStatus.processing ∧
       ∃ la, r.lockedAt = some la ∧
         la < now - requeueTtlSecs ttl * 1000000000) ∧
    (ttl / 1000000000 ≤ 0 → requeueTtlSecs ttl = 30) ∧
    (0 < ttl / 1000000000 → requeueTtlSecs ttl = ttl / 1000000000) ∧
    resetStaleRow now r =
      { r with status := JobStatus.pending, lockedAt := none,
               lockedBy := none, updatedAt := now } ∧
    (resetStaleRow now r).attempts = r.attempts ∧
    (resetStaleRow now r).id = r.id ∧
    (resetStaleRow now r).runAt = r.runAt ∧
    (resetStaleRow now r).maxAttempts = r.maxAttempts ∧
    (resetStaleRow now r).lastError = r.lastError ∧
    (staleAt now ttl r = false →
       (if staleAt now ttl r then resetStaleRow now r else r) = r) := by
  refine ⟨rfl, rfl, ?_, ?_, ?_, rfl, rfl, rfl, rfl, rfl, rfl, ?_⟩
  · cases hla : r.lockedAt with
    | none => simp [staleAt, hla]
    | some la => simp [staleAt, hla]
  · intro h
    simp [requeueTtlSecs, h]
  · intro h
    rw [requeueTtlSecs, if_neg (by omega)]
  · intro h
    rw [if_neg (by rw [h]; exact Bool.false_ne_true)]

/-- Witness for C9: a nonpositive whole-second truncation yields the
30-second clamp. -/
theorem requeueStale_characterization_witness : requeueTtlSecs 0 = 30 :=
  ((requeueStale_characterization 100 0 [] tieRowLo).2.2.2.1) (by decide)

/-- C9 counterexample: with lock_ttl = 0ns the claim's own condition
locked_at < now - lock_ttl holds for a processing row locked 10 seconds ago,
yet RequeueStaleProcessing — which clamps the nonpositive whole-second
truncation of the TTL to 30 seconds — resets nothing and returns count 0. -/
theorem requeueStale_ttl_clamp_counterexample :
    staleRowTenSec.status = JobStatus.processing ∧
    staleRowTenSec.lockedAt = some 90000000000 ∧
    (90000000000 : Int) < 100000000000 - 0 ∧
    requeueStaleProcessing 100000000000 0 [staleRowTenSec] =
      ([staleRowTenSec], 0) := by
  decide

/-- C10: the row inserted by Enqueue / EnqueueInTx is built by job.New with
status pending and attempts 0; a nonpositive requested MaxAttempts defaults
to 25, the zero-time RunAt defaults to the creation instant (making the row
immediately eligible for ClaimNext), and the insert appends exactly that row
when the idempotency key collides with no existing row. -/
theorem jobNew_enqueue_defaults (req : CreateRequest) (now : Int)
    (newId : Nat) (tbl : List JobRow) :
    (jobNew req now newId).status = JobStatus.pending ∧
    (jobNew req now newId).attempts = 0 ∧
    (req.maxAttempts ≤ 0 → (jobNew req now newId).maxAttempts = 25) ∧
    (0 < req.maxAttempts →
       (jobNew req now newId).maxAttempts = req.maxAttempts) ∧
    (req.runAt = 0 → (jobNew req now newId).runAt = now) ∧
    (req.runAt ≠ 0 → (jobNew req now newId).runAt = req.runAt) ∧
    (req.runAt = 0 → eligible now (jobNew req now newId) = true) ∧
    ((∀ k, req.idempotencyKey = some k →
        ∀ r ∈ tbl, r.idempotencyKey ≠ some k) →
       jobsCreate now newId req tbl =
         Except.ok (jobNew req now newId, tbl ++ [jobNew req now newId])) := by
  refine ⟨rfl, rfl, ?_, ?_, ?_, ?_, ?_, ?_⟩
  · intro h
    show (if req.maxAttempts ≤ 0 then 25 else req.maxAttempts) = 25
    rw [if_pos h]
  · intro h
    show (if req.maxAttempts ≤ 0 then 25 else req.maxAttempts) = req.maxAttempts
    rw [if_neg (by omega)]
  · intro h
    show (if req.runAt = 0 then now else req.runAt) = now
    rw [if_pos h]
  · intro h
    show (if req.runAt = 0 then now else req.runAt) = req.runAt
    rw [if_neg h]
  · intro h
    rw [eligible]
    simp only [Bool.and_eq_true, decide_eq_true_eq]
    refine ⟨⟨rfl, ?_⟩, ?_⟩
    · show (if req.runAt = 0 then now else req.runAt) ≤ now
      rw [if_pos h]
    · show (0 : Int) < (if req.maxAttempts ≤ 0 then 25 else req.maxAttempts)
      by_cases hm : req.maxAttempts ≤ 0
      · rw [if_pos hm]; norm_num
      · rw [if_neg hm]; omega
  · intro h
    cases hk : req.idempotencyKey with
    | none => simp [jobsCreate, hk]
    | some k =>
      have hnone : tbl.any (fun r => decide (r.idempotencyKey = some k)) = false := by
        rw [List.any_eq_false]
        intro r hr
        simp only [decide_eq_true_eq]
        exact h k hk r hr
      simp [jobsCreate, hk, hnone]

/-- Witness for C10: the defaults at a concrete request. -/
theorem jobNew_enqueue_defaults_witness :
    (jobNew { jobType := "registration.confirmation", payload := "",
              runAt := 0, maxAttempts := 0, idempotencyKey := none }
       7 1).maxAttempts = 25 :=
  (jobNew_enqueue_defaults
      { jobType := "registration.confirmation", payload := "", runAt := 0,
        maxAttempts := 0, idempotencyKey := none } 7 1 []).2.2.1 (by decide)

/-- C3: for a claimed job that fails with any handler error, the worker
reschedules when attempts + 1 < max_attempts — status back to pending,
attempts incremented, run_at = now + ExponentialBackoff(attempts),
last_error = the error message, lock fields cleared — and otherwise
dead-letters it via MarkFailed.  The decision depends on the error only
through its message: a CircuitOpen error takes exactly the same path as any
other error. -/
theorem handleFailure_spec (now jitterMs : Int) (j : JobRow)
    (e : HandlerError) (tbl : List JobRow) :
    (j.attempts + 1 < j.maxAttempts →
       handleFailure now jitterMs j e =
         FailureAction.rescheduled
           (now + exponentialBackoff j.attempts jitterMs) e.msg ∧
       applyFailure now jitterMs j e tbl =
         reschedule now (now + exponentialBackoff j.attempts jitterMs)
           j.id e.msg tbl) ∧
    (j.maxAttempts ≤ j.attempts + 1 →
       handleFailure now jitterMs j e = FailureAction.deadLettered e.msg ∧
       applyFailure now jitterMs j e tbl = markFailed now j.id e.msg tbl) ∧
    (∀ runAt msg,
       (rescheduleRow now runAt msg j).status = JobStatus.pending ∧
       (rescheduleRow now runAt msg j).attempts = j.attempts + 1 ∧
       (rescheduleRow now runAt msg j).runAt = runAt ∧
       (rescheduleRow now runAt msg j).lockedAt = none ∧
       (rescheduleRow now runAt msg j).lockedBy = none ∧
       (rescheduleRow now runAt msg j).lastError = some msg) ∧
    (∀ msg,
       (markFailedRow now msg j).status = JobStatus.failed ∧
       (markFailedRow now msg j).lastError = some msg ∧
       (markFailedRow now msg j).lockedAt = none ∧
       (markFailedRow now msg j).lockedBy = none ∧
       (markFailedRow now msg j).attempts = j.attempts) ∧
    (∀ e2 : HandlerError, e2.msg = e.msg →
       handleFailure now jitterMs j e2 = handleFailure now jitterMs j e ∧
       applyFailure now jitterMs j e2 tbl =
         applyFailure now jitterMs j e tbl) := by
  refine ⟨?_, ?_, ?_, ?_, ?_⟩
  · intro h
    constructor
    · rw [handleFailure, if_pos h]
    · rw [applyFailure, handleFailure, if_pos h]
  · intro h
    constructor
    · rw [handleFailure, if_neg (by omega)]
    · rw [applyFailure, handleFailure, if_neg (by omega)]
  · intro runAt msg
    exact ⟨rfl, rfl, rfl, rfl, rfl, rfl⟩
  · intro msg
    exact ⟨rfl, rfl, rfl, rfl, rfl⟩
  · intro e2 h
    constructor
    · rw [handleFailure, handleFailure, h]
    · rw [applyFailure, applyFailure, handleFailure, handleFailure, h]

/-- Witness for C3: a job with one retry left is rescheduled with its
attempts-based backoff and the failing error's message. -/
theorem handleFailure_spec_witness :
    handleFailure 0 0 tieRowLo { msg := "boom", isCircuitOpen := true } =
      FailureAction.rescheduled (0 + exponentialBackoff 0 0) "boom" :=
  ((handleFailure_spec 0 0 tieRowLo
      { msg := "boom", isCircuitOpen := true } []).1 (by decide)).1

/-- C8 (amended): for every attempt count n with 0 <= n <= 32 — the range
in which base * 2^n still fits an int64 — the backoff delay equals
min(2s * 2^n, 5min) plus the jitter (a whole number of milliseconds drawn
uniformly from [0ms, 250ms)), and hence base <= delay - jitter <= cap.  For
n >= 33 the float-to-Duration conversion overflows int64 and the delay is
no longer bounded below by base (see the counterexample). -/
theorem backoff_bounds_amended (n : Nat) (jitterMs : Int) (hn : n ≤ 32)
    (hj0 : 0 ≤ jitterMs) (hj1 : jitterMs < 250) :
    exponentialBackoff (n : Int) jitterMs =
      min (backoffBase * 2 ^ n) backoffCap + jitterMs * 1000000 ∧
    backoffBase ≤ exponentialBackoff (n : Int) jitterMs - jitterMs * 1000000 ∧
    exponentialBackoff (n : Int) jitterMs - jitterMs * 1000000 ≤ backoffCap := by
  have hpow0 : (0 : Int) < 2 ^ n := pow_pos (by norm_num) n
  have hpow2 : (2 : Int) ^ n ≤ 2 ^ 32 := pow_le_pow_right₀ (by norm_num) hn
  have hfit : (2000000000 : Int) * 2 ^ n ≤ int64Max := by
    have h1 : (2000000000 : Int) * 2 ^ n ≤ 2000000000 * 2 ^ 32 := by
      exact mul_le_mul_of_nonneg_left hpow2 (by norm_num)
    have h2 : (2000000000 : Int) * 2 ^ 32 ≤ int64Max := by
      rw [int64Max]; norm_num
    omega
  have heq : exponentialBackoff (n : Int) jitterMs =
      min ((2000000000 : Int) * 2 ^ n) 300000000000 + jitterMs * 1000000 := by
    rw [exponentialBackoff]
    simp only [Int.toNat_natCast]
    rw [if_pos hfit]
    by_cases hc : (300000000000 : Int) < 2000000000 * 2 ^ n
    · rw [if_pos hc, min_eq_right (le_of_lt hc)]
    · rw [if_neg hc, min_eq_left (by omega)]
  refine ⟨?_, ?_, ?_⟩
  · rw [heq, backoffBase, backoffCap]
  · rw [heq]
    rw [backoffBase]
    have hbase : (2000000000 : Int) ≤ min ((2000000000 : Int) * 2 ^ n) 300000000000 := by
      have h1 : (2000000000 : Int) ≤ 2000000000 * 2 ^ n := by nlinarith
      have h2 : (2000000000 : Int) ≤ 300000000000 := by norm_num
      exact le_min h1 h2
    omega
  · rw [heq, backoffCap]
    have h3 : min ((2000000000 : Int) * 2 ^ n) 300000000000 ≤ 300000000000 :=
      min_le_right _ _
    omega

/-- Witness for C8 (amended): attempt 4 with a 7ms jitter draw. -/
theorem backoff_bounds_amended_witness :
    exponentialBackoff ((4 : Nat) : Int) 7 =
      min (backoffBase * 2 ^ (4 : Nat)) backoffCap + 7 * 1000000 ∧
    backoffBase ≤ exponentialBackoff ((4 : Nat) : Int) 7 - 7 * 1000000 ∧
    exponentialBackoff ((4 : Nat) : Int) 7 - 7 * 1000000 ≤ backoffCap :=
  backoff_bounds_amended 4 7 (by decide) (by decide) (by decide)

/-- C8 counterexample: at attempt 33 the exact float64 product
2s * 2^33 = 17179869184s exceeds int64Max, the conversion to a Duration
yields the negative indefinite value, the cap comparison does not trigger,
and the returned delay (with jitter 0, a legal draw) is negative — so the
claimed identity and the bound base <= delay - jitter fail. -/
theorem backoff_overflow_counterexample :
    (0 : Int) ≤ 0 ∧ (0 : Int) < 250 ∧
    exponentialBackoff 33 0 < 0 ∧
    exponentialBackoff 33 0 ≠
      min (backoffBase * 2 ^ (33 : Nat)) backoffCap + 0 * 1000000 ∧
    ¬ backoffBase ≤ exponentialBackoff 33 0 - 0 := by
  decide

/-- One failing sequential call in the closed state stays closed with the
failure counter incremented while the counter is below the threshold. -/
theorem sendStep_closed_fail_stay (cfg : BreakerConfig) (t : Int) (k : Nat)
    (oa : Int) (hi : Nat) (h : k + 1 < cfg.failureThreshold) :
    (sendStep cfg t true
        { mode := BreakerMode.closed, consecutiveFailures := k,
          openedAt := oa, halfOpenInFlight := hi }).1 =
      { mode := BreakerMode.closed, consecutiveFailures := k + 1,
        openedAt := oa, halfOpenInFlight := hi } := by
  have hC : ¬ (BreakerMode.closed = BreakerMode.halfOpen ∧ 0 < hi) := by simp
  simp only [sendStep, allowRequest, afterRequest, if_neg hC]
  simp only [reduceCtorEq, if_false, if_true]
  rw [if_neg (by omega)]

/-- One failing sequential call in the closed state opens the breaker,
stamping openedAt with the call time, once the counter reaches the
threshold. -/
theorem sendStep_closed_fail_open (cfg : BreakerConfig) (t : Int) (k : Nat)
    (oa : Int) (hi : Nat) (h : cfg.failureThreshold ≤ k + 1) :
    (sendStep cfg t true
        { mode := BreakerMode.closed, consecutiveFailures := k,
          openedAt := oa, halfOpenInFlight := hi }).1 =
      { mode := BreakerMode.opened, consecutiveFailures := k + 1,
        openedAt := t, halfOpenInFlight := hi } := by
  have hC : ¬ (BreakerMode.closed = BreakerMode.halfOpen ∧ 0 < hi) := by simp
  simp only [sendStep, allowRequest, afterRequest, if_neg hC]
  simp only [reduceCtorEq, if_false, if_true]
  rw [if_pos h]

/-- Starting closed with k prior consecutive failures and no in-flight
half-open calls, a run of failing calls totalling the failure threshold
leaves the breaker open with openedAt equal to the last call time. -/
theorem failTrace_from_closed (cfg : BreakerConfig) :
    ∀ (times : List Int) (k : Nat) (oa : Int),
      k + times.length = cfg.failureThreshold → times ≠ [] →
      failTrace cfg times
        { mode := BreakerMode.closed, consecutiveFailures := k,
          openedAt := oa, halfOpenInFlight := 0 } =
        { mode := BreakerMode.opened,
          consecutiveFailures := cfg.failureThreshold,
          openedAt := times.getLastD 0, halfOpenInFlight := 0 } := by
  intro times
  induction times with
  | nil => intro k oa _ hne; exact absurd rfl hne
  | cons t rest ih =>
    intro k oa hlen _
    rw [failTrace, List.foldl_cons]
    cases rest with
    | nil =>
      simp only [List.length_cons, List.length_nil] at hlen
      rw [sendStep_closed_fail_open cfg t k oa 0 (by omega)]
      simp only [List.foldl_nil, List.getLastD_cons, List.getLastD_nil]
      have : k + 1 = cfg.failureThreshold := by omega
      rw [this]
    | cons r rs =>
      simp only [List.length_cons] at hlen
      rw [sendStep_closed_fail_stay cfg t k oa 0 (by omega)]
      have hrec := ih (k + 1) oa (by simp; omega) (by simp)
      rw [failTrace] at hrec
      rw [hrec]
      simp [List.getLastD_cons]

/-- In the open state, before the cooldown elapses, every call fast-fails
with CircuitOpen, leaves the breaker unchanged and never reaches the inner
notifier. -/
theorem sendStep_open_fast_fail (cfg : BreakerConfig) (t : Int)
    (innerFails : Bool) (b : Breaker) (hm : b.mode = BreakerMode.opened)
    (ht : t < b.openedAt + cfg.cooldownNs) :
    sendStep cfg t innerFails b = (b, SendResult.circuitOpen, false) := by
  have hA : allowRequest cfg t b = (b, false) := by
    simp only [allowRequest, hm]
    rw [if_neg (by omega)]
  simp only [sendStep, hA]
  simp

/-- C6: starting from a fresh protected notifier, after failure_threshold
consecutive inner failures (no intervening success) the breaker is open
with openedAt stamped by the last failure, and while the cooldown has not
yet elapsed since openedAt every call returns the distinguished CircuitOpen
error without invoking the inner notifier and without changing the breaker
state. -/
theorem breaker_opens_after_threshold (cfg : BreakerConfig)
    (times : List Int) (h1 : 0 < cfg.failureThreshold)
    (h2 : times.length = cfg.failureThreshold) :
    (failTrace cfg times breakerInit).mode = BreakerMode.opened ∧
    (failTrace cfg times breakerInit).openedAt = times.getLastD 0 ∧
    ∀ t innerFails,
      t < (failTrace cfg times breakerInit).openedAt + cfg.cooldownNs →
      sendStep cfg t innerFails (failTrace cfg times breakerInit) =
        (failTrace cfg times breakerInit, SendResult.circuitOpen, false) := by
  have hne : times ≠ [] := by
    intro h
    rw [h] at h2
    simp at h2
    omega
  have hmain := failTrace_from_closed cfg times 0 0 (by omega) hne
  rw [breakerInit, hmain]
  refine ⟨rfl, rfl, ?_⟩
  intro t innerFails ht
  exact sendStep_open_fast_fail cfg t innerFails _ rfl ht

/-- Witness for C6: threshold 3, cooldown 15; after failures at times
1, 2, 3 a call at time 10 fast-fails with CircuitOpen without invoking the
inner notifier. -/
theorem breaker_opens_after_threshold_witness :
    sendStep { failureThreshold := 3, cooldownNs := 15, halfOpenMaxCalls := 1 }
        10 true
        (failTrace
          { failureThreshold := 3, cooldownNs := 15, halfOpenMaxCalls := 1 }
          [1, 2, 3] breakerInit) =
      (failTrace
        { failureThreshold := 3, cooldownNs := 15, halfOpenMaxCalls := 1 }
        [1, 2, 3] breakerInit, SendResult.circuitOpen, false) :=
  (breaker_opens_after_threshold
      { failureThreshold := 3, cooldownNs := 15, halfOpenMaxCalls := 1 }
      [1, 2, 3] (by decide) (by decide)).2.2 10 true (by decide)

/-- In the half-open state, a run of admission attempts with no completion
admits exactly enough calls to raise the in-flight counter to the cap. -/
theorem allowRun_halfOpen_count (cfg : BreakerConfig) (t : Int) :
    ∀ (n : Nat) (b : Breaker), b.mode = BreakerMode.halfOpen →
      (allowRun cfg t n b).2 =
        min n (cfg.halfOpenMaxCalls - b.halfOpenInFlight) := by
  intro n
  induction n with
  | zero => intro b _; simp [allowRun]
  | succ m ih =>
    intro b hm
    rw [allowRun]
    by_cases hc : cfg.halfOpenMaxCalls ≤ b.halfOpenInFlight
    · have hstep : allowRequest cfg t b = (b, false) := by
        simp only [allowRequest, hm]
        rw [if_pos hc]
      rw [hstep]
      simp only [Bool.false_eq_true, if_false]
      rw [ih b hm]
      omega
    · have hstep : allowRequest cfg t b =
          ({ b with halfOpenInFlight := b.halfOpenInFlight + 1 }, true) := by
        simp only [allowRequest, hm]
        rw [if_neg hc]
      rw [hstep]
      simp only [if_true]
      rw [ih { b with halfOpenInFlight := b.halfOpenInFlight + 1 } hm]
      simp only []
      omega

/-- C7 (amended): once the cooldown has elapsed in the open state, the call
that observes the transition to half_open is admitted WITHOUT being counted
in half_open_in_flight, so a burst of admission attempts with no completed
trial admits up to half_open_max_calls + 1 calls (not exactly
half_open_max_calls); after the transition, further calls are admitted only
while half_open_in_flight < half_open_max_calls, each incrementing the
counter.  The first trial failure in half_open transitions straight back to
open, resetting opened_at to the failure time; a successful trial
transitions to closed and resets the consecutive-failure counter. -/
theorem breaker_half_open_behaviour (cfg : BreakerConfig) (b : Breaker)
    (t now : Int) (n : Nat) :
    (b.mode = BreakerMode.opened → b.openedAt + cfg.cooldownNs ≤ t →
       allowRequest cfg t b =
         ({ b with mode := BreakerMode.halfOpen, halfOpenInFlight := 0 },
          true) ∧
       (allowRun cfg t n b).2 = min n (cfg.halfOpenMaxCalls + 1)) ∧
    (b.mode = BreakerMode.halfOpen →
       (b.halfOpenInFlight < cfg.halfOpenMaxCalls →
          allowRequest cfg t b =
            ({ b with halfOpenInFlight := b.halfOpenInFlight + 1 }, true)) ∧
       (cfg.halfOpenMaxCalls ≤ b.halfOpenInFlight →
          allowRequest cfg t b = (b, false)) ∧
       (afterRequest cfg now true b).mode = BreakerMode.opened ∧
       (afterRequest cfg now true b).openedAt = now) ∧
    ((afterRequest cfg now false b).mode = BreakerMode.closed ∧
     (afterRequest cfg now false b).consecutiveFailures = 0) := by
  refine ⟨?_, ?_, ?_⟩
  · intro hm ht
    have htrans : allowRequest cfg t b =
        ({ b with mode := BreakerMode.halfOpen, halfOpenInFlight := 0 },
         true) := by
      simp only [allowRequest, hm]
      rw [if_pos ht]
    refine ⟨htrans, ?_⟩
    cases n with
    | zero => simp [allowRun]
    | succ m =>
      rw [allowRun, htrans]
      simp only [if_true]
      rw [allowRun_halfOpen_count cfg t m
            { b with mode := BreakerMode.halfOpen, halfOpenInFlight := 0 } rfl]
      simp only []
      omega
  · intro hm
    refine ⟨?_, ?_, ?_, ?_⟩
    · intro hlt
      simp only [allowRequest, hm]
      rw [if_neg (by omega)]
    · intro hge
      simp only [allowRequest, hm]
      rw [if_pos hge]
    · simp only [afterRequest, hm, true_and]
      by_cases h0 : 0 < b.halfOpenInFlight
      · rw [if_pos h0]
        simp
      · rw [if_neg h0]
        simp [hm]
    · simp only [afterRequest, hm, true_and]
      by_cases h0 : 0 < b.halfOpenInFlight
      · rw [if_pos h0]
        simp
      · rw [if_neg h0]
        simp [hm]
  · exact ⟨rfl, rfl⟩

/-- Witness for C7 (amended): cooldown 10 elapsed at time 20 with cap 1; a
burst of three admission attempts admits exactly two calls (the transition
call plus one counted trial). -/
theorem breaker_half_open_behaviour_witness :
    (allowRun { failureThreshold := 3, cooldownNs := 10, halfOpenMaxCalls := 1 }
        20 3
        { mode := BreakerMode.opened, consecutiveFailures := 3, openedAt := 0,
          halfOpenInFlight := 0 }).2 = min 3 (1 + 1) :=
  ((breaker_half_open_behaviour
      { failureThreshold := 3, cooldownNs := 10, halfOpenMaxCalls := 1 }
      { mode := BreakerMode.opened, consecutiveFailures := 3, openedAt := 0,
        halfOpenInFlight := 0 } 20 0 3).1 rfl (by decide)).2

/-- C7 counterexample: with half_open_max_calls = 1 and the cooldown
elapsed, two consecutive admission attempts are BOTH admitted before any
trial completes — the transition call is never counted in-flight — so the
breaker does not admit exactly half_open_max_calls trial calls, and a call
is admitted while another trial is still in flight. -/
theorem breaker_half_open_admits_two_counterexample :
    (let cfg : BreakerConfig :=
       { failureThreshold := 3, cooldownNs := 10, halfOpenMaxCalls := 1 }
     let b0 : Breaker :=
       { mode := BreakerMode.opened, consecutiveFailures := 3, openedAt := 0,
         halfOpenInFlight := 0 }
     let p1 := allowRequest cfg 20 b0
     let p2 := allowRequest cfg 20 p1.1
     cfg.halfOpenMaxCalls = 1 ∧ b0.openedAt + cfg.cooldownNs ≤ 20 ∧
     p1.2 = true ∧ p2.2 = true) := by
  decide

/-- A sent record with a non-null sent_at is preserved by any single ledger
operation other than MarkRegistrationConfirmationFailed. -/
theorem ledger_sent_step (op : LedgerOp) (d : DeliveryRecord)
    (hop : isMarkFailedOp op = false) (hs : d.status = DeliveryStatus.sent)
    (ha : d.sentAt ≠ none) :
    ∃ d2, applyLedgerOp op (some d) = some d2 ∧
      d2.status = DeliveryStatus.sent ∧ d2.sentAt ≠ none := by
  cases op with
  | tryStart now jobId recipient =>
    refine ⟨d, ?_, hs, ha⟩
    simp only [applyLedgerOp, tryStartRegistration]
    rw [if_neg (by rw [hs]; exact fun h => nomatch h)]
    rw [if_pos (Or.inl ha)]
  | markSentOp now pmid =>
    refine ⟨_, rfl, rfl, ?_⟩
    exact fun h => nomatch h
  | markFailedOp now msg => simp [isMarkFailedOp] at hop

/-- C5 (amended): a record that has reached status sent with a non-null
sent_at keeps status sent and a non-null sent_at under every further
sequence of TryStartRegistration and MarkRegistrationConfirmationSent
operations (TryStartRegistration reports AlreadySent and changes nothing;
MarkRegistrationConfirmationSent refreshes sent_at).
MarkRegistrationConfirmationFailed, however, is not status-guarded: applied
to a sent record it moves it to failed (see the counterexample), so
terminality holds only for operation sequences that do not mark a sent
record failed. -/
theorem ledger_sent_stable (ops : List LedgerOp) (d : DeliveryRecord)
    (hops : ∀ op ∈ ops, isMarkFailedOp op = false)
    (hs : d.status = DeliveryStatus.sent) (ha : d.sentAt ≠ none) :
    ∃ d2, applyLedgerOps ops (some d) = some d2 ∧
      d2.status = DeliveryStatus.sent ∧ d2.sentAt ≠ none := by
  induction ops generalizing d with
  | nil => exact ⟨d, rfl, hs, ha⟩
  | cons op rest ih =>
    obtain ⟨d1, h1, h2, h3⟩ :=
      ledger_sent_step op d (hops op (List.mem_cons_self op rest)) hs ha
    obtain ⟨d2, g1, g2, g3⟩ :=
      ih d1 (fun o ho => hops o (List.mem_cons_of_mem op ho)) h2 h3
    refine ⟨d2, ?_, g2, g3⟩
    rw [applyLedgerOps, List.foldl_cons, h1] at *
    exact g1

/-- Witness for C5 (amended): a sent record survives a retried
TryStartRegistration followed by a MarkSent refresh. -/
theorem ledger_sent_stable_witness :
    ∃ d2,
      applyLedgerOps [LedgerOp.tryStart 5 9 "u@x", LedgerOp.markSentOp 6 none]
        (some { jobId := 1, recipient := "u@x",
                status := DeliveryStatus.sent, sentAt := some 2,
                providerMessageId := none, lastError := none,
                updatedAt := 2 }) = some d2 ∧
      d2.status = DeliveryStatus.sent ∧ d2.sentAt ≠ none :=
  ledger_sent_stable [LedgerOp.tryStart 5 9 "u@x", LedgerOp.markSentOp 6 none]
    { jobId := 1, recipient := "u@x", status := DeliveryStatus.sent,
      sentAt := some 2, providerMessageId := none, lastError := none,
      updatedAt := 2 } (by decide) rfl (fun h => nomatch h)

/-- C5 counterexample: a sequence of ledger operations — TryStart, MarkSent,
MarkFailed — takes the record from sent (with non-null sent_at) to failed:
MarkRegistrationConfirmationFailed has no status guard, so a sent record is
not terminal under arbitrary ledger operations, contrary to the claim. -/
theorem ledger_sent_then_failed_counterexample :
    (let r1 := (tryStartRegistration 1 7 "u@x" none).1
     let r2 := markRegistrationConfirmationSent 2 none r1
     let r3 := markRegistrationConfirmationFailed 3 "boom" r2
     r2.map DeliveryRecord.status = some DeliveryStatus.sent ∧
     (r2.map DeliveryRecord.sentAt).isSome = true ∧
     r2.map DeliveryRecord.sentAt ≠ some none ∧
     r3.map DeliveryRecord.status = some DeliveryStatus.failed) := by
  decide

/-- C4: for a registration.confirmation job with a well-formed payload —
when the gate reports AlreadySent the handler returns success without ever
calling the notifier; when it reports InProgress the handler returns an
error (every handler error is retryable, cf. C3); when the notifier send
fails the handler calls MarkFailed with the error message after the send
and before returning, and propagates a failure whose CircuitOpen kind
matches the send error's; when the send succeeds the handler calls
MarkSent, and returns success whether or not that final mark succeeds. -/
theorem executeConfirmation_spec (send : Option SendError) (mOk : Bool)
    (e : SendError) :
    (executeConfirmation GateResult.alreadySent send mOk =
       (ExecResult.success, [ExecEvent.tryStartCall]) ∧
     ExecEvent.notifierSend ∉
       (executeConfirmation GateResult.alreadySent send mOk).2) ∧
    (executeConfirmation GateResult.inProgress send mOk =
       (ExecResult.failure { msg := "confirmation send in progress",
                             isCircuitOpen := false },
        [ExecEvent.tryStartCall])) ∧
    (executeConfirmation GateResult.ok (some e) mOk =
       ((if e.isCircuitOpen then
           ExecResult.failure { msg := "notifier fail-fast: " ++ e.msg,
                                isCircuitOpen := true }
         else ExecResult.failure { msg := e.msg, isCircuitOpen := false }),
        [ExecEvent.tryStartCall, ExecEvent.notifierSend,
         ExecEvent.markFailedCall e.msg])) ∧
    (∀ he, (executeConfirmation GateResult.ok (some e) mOk).1 =
        ExecResult.failure he → he.isCircuitOpen = e.isCircuitOpen) ∧
    (executeConfirmation GateResult.ok none mOk =
       (ExecResult.success,
        [ExecEvent.tryStartCall, ExecEvent.notifierSend,
         ExecEvent.markSentCall])) := by
  refine ⟨⟨rfl, by simp [executeConfirmation]⟩, rfl, ?_, ?_, rfl⟩
  · simp only [executeConfirmation]
  · intro he h
    simp only [executeConfirmation] at h
    by_cases hc : e.isCircuitOpen
    · rw [if_pos hc] at h
      cases h
      rw [hc]
    · rw [if_neg hc] at h
      cases h
      simp only []
      exact (Bool.not_eq_true e.isCircuitOpen).mp hc |>.symm ▸ rfl

/-- Witness for C4: a circuit-open send error propagates with the
CircuitOpen kind intact. -/
theorem executeConfirmation_spec_witness :
    (executeConfirmation GateResult.ok
        (some { msg := "circuit breaker open", isCircuitOpen := true })
        true).1 =
      ExecResult.failure { msg := "notifier fail-fast: circuit breaker open",
                           isCircuitOpen := true } := by
  have h := (executeConfirmation_spec
      (some { msg := "circuit breaker open", isCircuitOpen := true }) true
      { msg := "circuit breaker open", isCircuitOpen := true }).2.2.1
  rw [h]
  decide

/-- C2: when the confirmation-job enqueue inside the registration-creation
transaction fails with a duplicate-idempotency-key unique violation, the
Register handler treats it exactly like a successful enqueue: it still
invokes Commit, the registration write is committed whenever Commit
succeeds, and the response is 201 Created with no error surfaced to the
caller. -/
theorem register_duplicate_key_benign (commitOk : Bool) (jid : Nat) :
    (registerAfterCreate EnqueueOutcome.uniqueViolation commitOk).2 = true ∧
    (commitOk = true →
       (registerAfterCreate EnqueueOutcome.uniqueViolation commitOk).1 =
         RegisterResponse.created ∧
       registrationCommitted EnqueueOutcome.uniqueViolation commitOk = true) ∧
    (registerAfterCreate EnqueueOutcome.uniqueViolation commitOk).1 =
      (registerAfterCreate (EnqueueOutcome.enqOk jid) commitOk).1 := by
  refine ⟨rfl, ?_, rfl⟩
  intro h
  subst h
  exact ⟨rfl, rfl⟩

/-- Witness for C2: with a successful commit, the duplicate-key path
responds 201 Created and the registration is committed. -/
theorem register_duplicate_key_benign_witness :
    (registerAfterCreate EnqueueOutcome.uniqueViolation true).1 =
      RegisterResponse.created ∧
    registrationCommitted EnqueueOutcome.uniqueViolation true = true :=
  (register_duplicate_key_benign true 0).2.1 rfl

end EventHub
